import Mathlib

/-!
Shallow embedding of the storage unit layer of `drt-chain-storage-go`
(`storageUnit/storageunit.go`), together with the parts of its collaborator
interfaces (`types.Cacher`, `types.Persister`, the persister factory and the
error constants of the `common` package) that the sources use but do not
contain; those collaborators are modelled from the specification.
-/

namespace storageUnit

/-- Byte strings (Go `[]byte`), as lists of naturals standing for bytes. -/
abbrev Bytes := List Nat

/-- Errors, identified by their message (Go `error` values). -/
abbrev Err := String

/-- A dynamically typed value (Go `interface\x7b\x7d`) as handed around by the
cacher and persister interfaces: either a byte slice or a value of some other
dynamic type. -/
inductive GoValue where
  | bytes (b : Bytes)
  | other (tag : Nat)
deriving DecidableEq, Repr

/-- Modelled from the spec: `common.ErrOldestEpochNotAvailable` (the `common`
package is not under the sources). -/
def ErrOldestEpochNotAvailable : Err := "oldest epoch not available"

/-- Modelled from the spec: `common.ErrCacheSizeIsLowerThanBatchSize`, the
batch-size-exceeds-capacity configuration error. -/
def ErrCacheSizeIsLowerThanBatchSize : Err := "cache size is lower than batch size"

/-- Modelled from the spec: `common.ErrNilPersister`. -/
def ErrNilPersister : Err := "nil persister"

/-- Modelled from the spec: `common.ErrNilCacher`. -/
def ErrNilCacher : Err := "nil cacher"

/-- Modelled from the spec: `common.ErrLRUCacheWithProvidedSize`, rejecting a
byte-size budget on the plain count-bounded LRU cache. -/
def ErrLRUCacheWithProvidedSize : Err := "LRU cache does not support size in bytes"

/-- Modelled from the spec: `common.ErrLRUCacheInvalidSize`, the size-bounded
LRU cache's below-minimum-floor error (wrapped with the provided size). -/
def ErrLRUCacheInvalidSize : Err := "wrong size in bytes for LRU cache"

/-- Modelled from the spec: `common.ErrNotSupportedCacheType`. -/
def ErrNotSupportedCacheType : Err := "not supported cache type"

/-- `ErrNilPersisterFactory` signals that a nil persister factory handler has
been provided (declared in `storageunit.go` itself). -/
def ErrNilPersisterFactory : Err := "nil persister factory"

/-- `minimumSizeForLRUCache` from `storageunit.go`. -/
def minimumSizeForLRUCache : Nat := 1024

/-- `MaxRetriesToCreateDB` from `storageunit.go`: the maximum number of times
to try to create the DB if it failed. -/
def MaxRetriesToCreateDB : Nat := 10

/-- Modelled from the spec: the Cache Engine capability (`types.Cacher`, not
under the sources), as used by the storage unit: insert-or-overwrite `put`
with a size hint, `get`, `remove`, `has`, `clear`. Values are byte strings,
since the Storage Unit exclusively owns its cache and only ever stores byte
slices in it. The state type `κ` is abstract: the unit is polymorphic over
cache implementations exactly as the Go code is over the interface. -/
structure CacherOps (κ : Type) where
  put : κ → Bytes → Bytes → Nat → κ
  get : κ → Bytes → Option Bytes
  remove : κ → Bytes → κ
  has : κ → Bytes → Bool
  clear : κ → κ

/-- Modelled from the spec: the durable persister capability (`types.Persister`,
not under the sources): `Put(key, value) error`, `Get(key) (value, error)`,
`Has(key) error`, `Remove(key) error`. A mutating operation returns the new
persister state next to the optional error; `get` yields a dynamically typed
value, matching the type assertion performed by `Unit.Get` in the source. -/
structure PersisterOps (π : Type) where
  put : π → Bytes → Bytes → π × Option Err
  get : π → Bytes → Except Err GoValue
  remove : π → Bytes → π × Option Err
  has : π → Bytes → Option Err

/-- `Unit` represents a storer's data bank holding the cache and persistence
unit (`storageunit.go`). The mutex only serializes access and has no
sequential meaning, so it is not part of the state. -/
structure Unit (κ π : Type) where
  cacher : κ
  persister : π
deriving DecidableEq, Repr

/-- A key/value pair as returned by `GetBulkFromEpoch`
(`storageCore.KeyValuePair`). -/
structure KeyValuePair where
  Key : Bytes
  Value : Bytes
deriving DecidableEq, Repr

/-- `Unit.Put` adds data to both cache and persistence medium: it writes the
cache, then the persister; on a persister error it removes the cache entry
and returns the error. The pair is (updated unit, returned error). -/
def Unit.Put (C : CacherOps κ) (P : PersisterOps π) (u : Unit κ π)
    (key data : Bytes) : Unit κ π × Option Err :=
  let c1 := C.put u.cacher key data data.length
  let pr := P.put u.persister key data
  match pr.2 with
  | some e => (⟨C.remove c1 key, pr.1⟩, some e)
  | none => (⟨c1, pr.1⟩, none)

/-- `Unit.PutInEpoch` will call the `Put` method as this storer doesn't handle
epochs. -/
def Unit.PutInEpoch (C : CacherOps κ) (P : PersisterOps π) (u : Unit κ π)
    (key data : Bytes) (_epoch : Nat) : Unit κ π × Option Err :=
  Unit.Put C P u key data

/-- `Unit.GetOldestEpoch` will return an error that signals that the oldest
epoch fetching is not available. -/
def Unit.GetOldestEpoch (_u : Unit κ π) : Nat × Option Err :=
  (0, some ErrOldestEpochNotAvailable)

/-- The error built by `Unit.Get` when the persisted value is not a byte
slice; the key is rendered into the message (base64 in the source, the list
rendering here). -/
def notByteSliceError (key : Bytes) : Err :=
  "key: " ++ toString key ++ " is not a byte slice"

/-- `Unit.Get` searches the key in the cache; in case it is not found it
further searches the associated database, propagating a database error,
rejecting a value that is not a byte slice, and otherwise updating the cache
with the value before returning it. The pair is (updated unit, result);
an error result models Go's `(nil, err)` return. -/
def Unit.Get (C : CacherOps κ) (P : PersisterOps π) (u : Unit κ π)
    (key : Bytes) : Unit κ π × Except Err Bytes :=
  match C.get u.cacher key with
  | some v => (u, .ok v)
  | none =>
    match P.get u.persister key with
    | .error e => (u, .error e)
    | .ok (.other _) => (u, .error (notByteSliceError key))
    | .ok (.bytes buff) =>
      (⟨C.put u.cacher key buff buff.length, u.persister⟩, .ok buff)

/-- `Unit.GetFromEpoch` will call the `Get` method as this storer doesn't
handle epochs. -/
def Unit.GetFromEpoch (C : CacherOps κ) (P : PersisterOps π) (u : Unit κ π)
    (key : Bytes) (_epoch : Nat) : Unit κ π × Except Err Bytes :=
  Unit.Get C P u key

/-- `Unit.SearchFirst` will call the `Get` method as this storer doesn't
handle epochs. -/
def Unit.SearchFirst (C : CacherOps κ) (P : PersisterOps π) (u : Unit κ π)
    (key : Bytes) : Unit κ π × Except Err Bytes :=
  Unit.Get C P u key

/-- `Unit.Remove` removes the data associated to the given key from both
cache and persistence medium, returning the persister's error. -/
def Unit.Remove (C : CacherOps κ) (P : PersisterOps π) (u : Unit κ π)
    (key : Bytes) : Unit κ π × Option Err :=
  let c1 := C.remove u.cacher key
  let pr := P.remove u.persister key
  (⟨c1, pr.1⟩, pr.2)

/-- `Unit.RemoveFromCurrentEpoch` removes the data associated to the given
key from both cache and persistence medium (alias of `Remove`). -/
def Unit.RemoveFromCurrentEpoch (C : CacherOps κ) (P : PersisterOps π)
    (u : Unit κ π) (key : Bytes) : Unit κ π × Option Err :=
  Unit.Remove C P u key

/-- The loop of `Unit.GetBulkFromEpoch`: for each key in order call `Get`
(which threads the unit state, since `Get` back-fills the cache), append the
pair on success, log and skip the key on error. -/
def Unit.getBulkLoop (C : CacherOps κ) (P : PersisterOps π) (u : Unit κ π)
    (results : List KeyValuePair) : List Bytes → Unit κ π × List KeyValuePair
  | [] => (u, results)
  | key :: rest =>
    let step := Unit.Get C P u key
    match step.2 with
    | .error _ => Unit.getBulkLoop C P step.1 results rest
    | .ok v => Unit.getBulkLoop C P step.1 (results ++ [⟨key, v⟩]) rest

/-- `Unit.GetBulkFromEpoch` will call the `Get` method for all keys as this
storer doesn't handle epochs; keys whose `Get` fails are skipped (only
logged), and the returned error is always nil. -/
def Unit.GetBulkFromEpoch (C : CacherOps κ) (P : PersisterOps π)
    (u : Unit κ π) (keys : List Bytes) (_epoch : Nat) :
    Unit κ π × List KeyValuePair × Option Err :=
  let r := Unit.getBulkLoop C P u [] keys
  (r.1, r.2, none)

/-- Reference function for claim C10, following the claim's words: walk the
keys in input order, keep exactly one pair for each key whose sequential
`Get` succeeded, omit every key whose `Get` returned an error. -/
def getBulkSpec (C : CacherOps κ) (P : PersisterOps π) (u : Unit κ π) :
    List Bytes → List KeyValuePair
  | [] => []
  | key :: rest =>
    let step := Unit.Get C P u key
    match step.2 with
    | .error _ => getBulkSpec C P step.1 rest
    | .ok v => ⟨key, v⟩ :: getBulkSpec C P step.1 rest

/-- `CacheConfig` holds the configurable elements of a cache. The Go `Type`
field (a string-typed `CacheType`) is written `Type'` because `Type` is a
Lean keyword. -/
structure CacheConfig where
  Name : String
  Type' : String
  SizeInBytes : Nat
  SizeInBytesPerSender : Nat
  Capacity : Nat
  SizePerSender : Nat
  Shards : Nat
deriving DecidableEq, Repr

/-- `DBConfig` holds the configurable elements of a database; `MaxBatchSize`
is a Go `int`, hence `Int` here, while `Capacity` above is a `uint32`. -/
structure DBConfig where
  FilePath : String
  Type' : String
  BatchDelaySeconds : Int
  MaxBatchSize : Int
  MaxOpenFiles : Int
deriving DecidableEq, Repr

/-- Cache type constant `LRUCache` ("LRU"). -/
def LRUCache : String := "LRU"

/-- Cache type constant `SizeLRUCache` ("SizeLRU"). -/
def SizeLRUCache : String := "SizeLRU"

/-- Cache type constant `FIFOShardedCache` ("FIFOSharded"). -/
def FIFOShardedCache : String := "FIFOSharded"

/-- The wrapped error `fmt.Errorf("%w, provided %d, minimum %d",
common.ErrLRUCacheInvalidSize, sizeInBytes, minimumSizeForLRUCache)` built by
`NewCache` for an undersized size-bounded LRU cache. -/
def lruInvalidSizeError (sizeInBytes : Nat) : Err :=
  ErrLRUCacheInvalidSize ++ ", provided " ++ toString sizeInBytes ++
    ", minimum " ++ toString minimumSizeForLRUCache

/-- The handle produced by a successful `NewCache`: which concrete cache
constructor was reached and with which arguments. Modelled from the spec:
the concrete constructors (`lrucache.NewCache`,
`lrucache.NewCacheWithSizeInBytes`, `fifocache.NewShardedCache`) are not
under the sources and §4.1 gives them no failure on the reached inputs, so
they are modelled as succeeding. -/
inductive CacherHandle where
  | lru (capacity : Nat)
  | sizeLru (capacity sizeInBytes : Nat)
  | fifoSharded (capacity shards : Nat)
deriving DecidableEq, Repr

/-- `NewCache` creates a new cache from a cache config: the plain LRU kind
rejects any non-zero byte size, the size-bounded LRU kind rejects a byte size
below `minimumSizeForLRUCache`, an unrecognized kind is unsupported. The
`MonitorNewCache` call at its head is a logging/metrics side effect only and
has no sequential meaning here; `NewStorageUnitFromConf` below counts the
invocations of `NewCache` instead. -/
def NewCache (config : CacheConfig) : Except Err CacherHandle :=
  if config.Type' = LRUCache then
    if config.SizeInBytes ≠ 0 then .error ErrLRUCacheWithProvidedSize
    else .ok (.lru config.Capacity)
  else if config.Type' = SizeLRUCache then
    if config.SizeInBytes < minimumSizeForLRUCache then
      .error (lruInvalidSizeError config.SizeInBytes)
    else .ok (.sizeLru config.Capacity config.SizeInBytes)
  else if config.Type' = FIFOShardedCache then
    .ok (.fifoSharded config.Capacity config.Shards)
  else .error ErrNotSupportedCacheType

/-- Modelled from the spec: a persister factory (`PersisterFactoryHandler`).
`Create(path)` may behave differently on successive calls (transient
failures), so the model maps the path and the zero-based call index to that
call's outcome; a `none` factory is Go's nil factory (`check.IfNil`). -/
abbrev Factory (π : Type) := Option (String → Nat → Except Err π)

/-- The retry loop of `NewDB`, attempt index `i` with `remaining` iterations
left. Returns the Go `db` and `err` variables as left after the loop (or at
the early return on success), the number of `Create` calls made and the
number of backoff sleeps performed. A failed attempt always sleeps before
the loop condition is re-checked, the final attempt included. -/
def newDBLoop (create : Nat → Except Err π) (i : Nat) :
    (remaining : Nat) → Option π × Option Err × Nat × Nat
  | 0 => (none, none, 0, 0)
  | r + 1 =>
    match create i with
    | .ok d => (some d, none, 1, 0)
    | .error e =>
      match newDBLoop create (i + 1) r with
      | (some d, _, c, s) => (some d, none, c + 1, s + 1)
      | (none, err, c, s) => (none, some (err.getD e), c + 1, s + 1)

/-- `NewDB` creates a new database via the persister factory: a nil factory
is rejected immediately, otherwise `Create` is retried up to
`MaxRetriesToCreateDB` times with a backoff sleep after each failure. The
result is (outcome, `Create` calls, sleeps); the `.ok none` outcome (nil
persister and nil error, reachable in Go only if the retry bound were zero)
keeps the post-loop `if err != nil` faithful. -/
def NewDB (factory : Factory π) (path : String) :
    Except Err (Option π) × Nat × Nat :=
  match factory with
  | none => (.error ErrNilPersisterFactory, 0, 0)
  | some create =>
    match newDBLoop (create path) 0 MaxRetriesToCreateDB with
    | (_, some e, c, s) => (.error e, c, s)
    | (db, none, c, s) => (.ok db, c, s)

/-- `NewStorageUnit` composes a cacher and a persister, rejecting a nil
persister first and then a nil cacher, exactly as the source does. -/
def NewStorageUnit (c : Option CacherHandle) (p : Option π) :
    Except Err (CacherHandle × π) :=
  match p with
  | none => .error ErrNilPersister
  | some p' =>
    match c with
    | none => .error ErrNilCacher
    | some c' => .ok (c', p')

/-- `NewStorageUnitFromConf` creates a new storage unit from a storage unit
config: it first validates that `dbConf.MaxBatchSize` does not exceed the
cache capacity, then builds the cache via `NewCache`, then the persister via
`NewDB`, and finally composes them via `NewStorageUnit`. The result carries
(outcome, number of `NewCache` invocations, number of factory `Create`
calls, number of backoff sleeps), so that "fails before the cache is built
and before any `Create` call" is observable. -/
def NewStorageUnitFromConf (cacheConf : CacheConfig) (dbConf : DBConfig)
    (persisterFactory : Factory π) :
    Except Err (CacherHandle × π) × Nat × Nat × Nat :=
  if dbConf.MaxBatchSize > (cacheConf.Capacity : Int) then
    (.error ErrCacheSizeIsLowerThanBatchSize, 0, 0, 0)
  else
    match NewCache cacheConf with
    | .error e => (.error e, 1, 0, 0)
    | .ok cache =>
      match NewDB persisterFactory dbConf.FilePath with
      | (.error e, c, s) => (.error e, 1, c, s)
      | (.ok db, c, s) => (NewStorageUnit (some cache) db, 1, c, s)

/-- A concrete Cache Engine instance for witnesses: an association list with
insert-at-front-and-drop-duplicates `put`. -/
def listCacherOps : CacherOps (List (Bytes × Bytes)) where
  put c k v _ := (k, v) :: c.filter (fun kv => !(kv.1 == k))
  get c k := (c.find? (fun kv => kv.1 == k)).map (fun kv => kv.2)
  remove c k := c.filter (fun kv => !(kv.1 == k))
  has c k := c.any (fun kv => kv.1 == k)
  clear _ := []

/-- A concrete persister instance for witnesses: an association-list store of
dynamically typed values whose operations never fail. -/
def tablePersisterOps : PersisterOps (List (Bytes × GoValue)) where
  put p k v := ((k, .bytes v) :: p.filter (fun kv => !(kv.1 == k)), none)
  get p k :=
    match p.find? (fun kv => kv.1 == k) with
    | some kv => .ok kv.2
    | none => .error "key not found"
  remove p k := (p.filter (fun kv => !(kv.1 == k)), none)
  has p k := if p.any (fun kv => kv.1 == k) then none else some "key not found"

/-- A persister for witnesses whose `put` always fails. -/
def failingPutPersisterOps : PersisterOps PUnit where
  put p _ _ := (p, some "disk full")
  get _ _ := .error "key not found"
  remove p _ := (p, none)
  has _ _ := some "key not found"

/-- A persister for witnesses whose `get` always succeeds with a value that
is not a byte slice. -/
def otherValuePersisterOps : PersisterOps PUnit where
  put p _ _ := (p, none)
  get _ _ := .ok (.other 0)
  remove p _ := (p, none)
  has _ _ := none

/-- Inserting into the list cacher makes the key retrievable. -/
theorem listCacher_get_put (c : List (Bytes × Bytes)) (k v : Bytes) (n : Nat) :
    listCacherOps.get (listCacherOps.put c k v n) k = some v := by
  simp [listCacherOps]

/-- Removing a key from the list cacher makes lookup miss. -/
theorem listCacher_get_remove (c : List (Bytes × Bytes)) (k : Bytes) :
    listCacherOps.get (listCacherOps.remove c k) k = none := by
  have hfind : (listCacherOps.remove c k).find? (fun kv => kv.1 == k) = none := by
    rw [List.find?_eq_none]
    intro x hx
    have hmem := hx
    simp only [listCacherOps, List.mem_filter] at hmem
    simpa using hmem.2
  simp only [listCacherOps] at hfind ⊢
  rw [hfind]
  rfl

/-- C8: the epoch-qualified operations are pass-through aliases of their
unqualified counterparts for every epoch, and `GetOldestEpoch` always
returns the oldest-epoch-not-available error. -/
theorem epoch_variants_pass_through (C : CacherOps κ) (P : PersisterOps π)
    (u : Unit κ π) (key data : Bytes) (epoch : Nat) :
    Unit.PutInEpoch C P u key data epoch = Unit.Put C P u key data
    ∧ Unit.GetFromEpoch C P u key epoch = Unit.Get C P u key
    ∧ Unit.SearchFirst C P u key = Unit.Get C P u key
    ∧ Unit.RemoveFromCurrentEpoch C P u key = Unit.Remove C P u key
    ∧ Unit.GetOldestEpoch u = (0, some ErrOldestEpochNotAvailable) :=
  ⟨rfl, rfl, rfl, rfl, rfl⟩

/-- C6: calling `NewDB` with a nil persister factory returns the
nil-persister-factory error immediately, with zero `Create` calls and zero
backoff sleeps. -/
theorem NewDB_nil_factory (path : String) :
    NewDB (none : Factory π) path = (.error ErrNilPersisterFactory, 0, 0) :=
  rfl

/-- C3: whenever `MaxBatchSize` exceeds the cache capacity,
`NewStorageUnitFromConf` returns the batch-size-exceeds-capacity error with
zero `NewCache` invocations (the cache is not built) and zero factory
`Create` calls. -/
theorem NewStorageUnitFromConf_batch_size_validation (cacheConf : CacheConfig)
    (dbConf : DBConfig) (factory : Factory π)
    (h : dbConf.MaxBatchSize > (cacheConf.Capacity : Int)) :
    NewStorageUnitFromConf cacheConf dbConf factory
      = (.error ErrCacheSizeIsLowerThanBatchSize, 0, 0, 0) := by
  unfold NewStorageUnitFromConf
  rw [if_pos h]

/-- Witness for C3: `MaxBatchSize = 100` with `Capacity = 50` fails this
way. -/
theorem NewStorageUnitFromConf_batch_size_validation_witness :
    (100 : Int) > ((50 : Nat) : Int)
    ∧ NewStorageUnitFromConf ⟨"cache", "LRU", 0, 0, 50, 0, 0⟩
        ⟨"path", "LvlDB", 0, 100, 0⟩ (none : Factory PUnit)
      = (.error ErrCacheSizeIsLowerThanBatchSize, 0, 0, 0) :=
  ⟨by decide,
   NewStorageUnitFromConf_batch_size_validation ⟨"cache", "LRU", 0, 0, 50, 0, 0⟩
     ⟨"path", "LvlDB", 0, 100, 0⟩ (none : Factory PUnit) (by decide)⟩

/-- C9: if on a cache miss the persister returns, without error, a value
that is not a byte slice, `Get` returns the type-shape error naming the key
(with the nil value of the error case) and leaves the unit — in particular
the cache — unchanged. -/
theorem Get_non_byte_slice_value (C : CacherOps κ) (P : PersisterOps π)
    (u : Unit κ π) (key : Bytes) (t : Nat)
    (hmiss : C.get u.cacher key = none)
    (hother : P.get u.persister key = .ok (.other t)) :
    Unit.Get C P u key = (u, .error (notByteSliceError key)) := by
  unfold Unit.Get
  rw [hmiss, hother]

/-- Witness for C9: a persister handing back a non-byte-slice value makes
`Get` fail with the type-shape error and leaves the unit unchanged. -/
theorem Get_non_byte_slice_value_witness :
    Unit.Get listCacherOps otherValuePersisterOps ⟨[], PUnit.unit⟩ [1]
      = (⟨[], PUnit.unit⟩, .error (notByteSliceError [1])) :=
  Get_non_byte_slice_value listCacherOps otherValuePersisterOps
    ⟨[], PUnit.unit⟩ [1] 0 rfl rfl

/-- Whenever the cache misses a key, any value `Get` returns for that key is
exactly a byte-slice value the persister returned for it. -/
theorem Get_ok_of_cache_miss (C : CacherOps κ) (P : PersisterOps π)
    (w : Unit κ π) (key : Bytes) (hm : C.get w.cacher key = none) :
    ∀ v, (Unit.Get C P w key).2 = .ok v →
      P.get w.persister key = .ok (.bytes v) := by
  intro v hv
  unfold Unit.Get at hv
  simp only [hm] at hv
  cases hpg : P.get w.persister key with
  | error e2 => rw [hpg] at hv; simp at hv
  | ok gv =>
    cases gv with
    | other t => rw [hpg] at hv; simp at hv
    | bytes b =>
      rw [hpg] at hv
      simp at hv
      subst hv
      rfl

/-- C1: `Put` succeeds exactly when the durable write succeeds, and when the
durable write fails the freshly written cache entry is rolled back: the
returned unit's cache misses the key (for any cache whose `remove` makes the
removed key miss), so any value a subsequent `Get` returns comes from the
persister, not from the cache. -/
theorem Put_rollback_on_persister_failure (C : CacherOps κ)
    (P : PersisterOps π) (u : Unit κ π) (key data : Bytes)
    (hrm : ∀ c k, C.get (C.remove c k) k = none) :
    ((Unit.Put C P u key data).2 = none ↔ (P.put u.persister key data).2 = none)
    ∧ (∀ e, (P.put u.persister key data).2 = some e →
        Unit.Put C P u key data
          = (⟨C.remove (C.put u.cacher key data data.length) key,
              (P.put u.persister key data).1⟩, some e)
        ∧ C.get (Unit.Put C P u key data).1.cacher key = none
        ∧ (∀ v, (Unit.Get C P (Unit.Put C P u key data).1 key).2 = .ok v →
            P.get (Unit.Put C P u key data).1.persister key = .ok (.bytes v))) := by
  constructor
  · unfold Unit.Put
    cases h : (P.put u.persister key data).2 <;> simp [h]
  · intro e he
    have hput : Unit.Put C P u key data
        = (⟨C.remove (C.put u.cacher key data data.length) key,
            (P.put u.persister key data).1⟩, some e) := by
      unfold Unit.Put
      simp only [he]
    have hmiss : C.get (Unit.Put C P u key data).1.cacher key = none := by
      rw [hput]
      exact hrm _ _
    exact ⟨hput, hmiss, Get_ok_of_cache_miss C P _ key hmiss⟩

/-- Witness for C1: a persister whose `put` fails makes `Put` fail and roll
the cache entry back. -/
theorem Put_rollback_on_persister_failure_witness :
    Unit.Put listCacherOps failingPutPersisterOps ⟨[], PUnit.unit⟩ [1] [7]
      = (⟨[], PUnit.unit⟩, some "disk full")
    ∧ listCacherOps.get
        (Unit.Put listCacherOps failingPutPersisterOps
          ⟨[], PUnit.unit⟩ [1] [7]).1.cacher [1] = none := by
  have h := (Put_rollback_on_persister_failure listCacherOps
    failingPutPersisterOps ⟨[], PUnit.unit⟩ [1] [7]
    listCacher_get_remove).2 "disk full" rfl
  refine ⟨?_, h.2.1⟩
  rw [h.1]
  rfl

/-- C2: `Get` returns the cached value on a hit; on a miss it propagates a
persister error (with the error case standing for Go's nil value), and on a
successful persister read of a byte slice it back-fills the cache before
returning the value, so an immediately following `Get` of the same key is
answered from the (now updated) cache with the same value. -/
theorem Get_read_through (C : CacherOps κ) (P : PersisterOps π)
    (u : Unit κ π) (key : Bytes)
    (hcput : ∀ c k v n, C.get (C.put c k v n) k = some v) :
    (∀ v, C.get u.cacher key = some v → Unit.Get C P u key = (u, .ok v))
    ∧ (∀ e, C.get u.cacher key = none → P.get u.persister key = .error e →
        Unit.Get C P u key = (u, .error e))
    ∧ (∀ b, C.get u.cacher key = none →
        P.get u.persister key = .ok (.bytes b) →
        Unit.Get C P u key
          = (⟨C.put u.cacher key b b.length, u.persister⟩, .ok b)
        ∧ Unit.Get C P (Unit.Get C P u key).1 key
          = ((Unit.Get C P u key).1, .ok b)) := by
  refine ⟨?_, ?_, ?_⟩
  · intro v hv
    unfold Unit.Get
    rw [hv]
  · intro e hmiss herr
    unfold Unit.Get
    rw [hmiss, herr]
  · intro b hmiss hok
    have h1 : Unit.Get C P u key
        = (⟨C.put u.cacher key b b.length, u.persister⟩, .ok b) := by
      unfold Unit.Get
      rw [hmiss, hok]
    refine ⟨h1, ?_⟩
    rw [h1]
    unfold Unit.Get
    rw [hcput]

/-- Witness for C2: a miss back-filled from the persister, followed by a
cache hit on the immediately repeated `Get`. -/
theorem Get_read_through_witness :
    Unit.Get listCacherOps tablePersisterOps
        ⟨[], [([1], GoValue.bytes [7])]⟩ [1]
      = (⟨[([1], [7])], [([1], GoValue.bytes [7])]⟩, .ok [7])
    ∧ Unit.Get listCacherOps tablePersisterOps
        ⟨[([1], [7])], [([1], GoValue.bytes [7])]⟩ [1]
      = (⟨[([1], [7])], [([1], GoValue.bytes [7])]⟩, .ok [7]) := by
  have h := (Get_read_through listCacherOps tablePersisterOps
    ⟨[], [([1], GoValue.bytes [7])]⟩ [1] listCacher_get_put).2.2 [7] rfl rfl
  constructor
  · rw [h.1]
    rfl
  · have h2 := h.2
    rw [h.1] at h2
    exact h2

/-- The retry loop makes at most `remaining` `Create` calls. -/
theorem newDBLoop_calls_le (create : Nat → Except Err π) :
    ∀ r i, (newDBLoop create i r).2.2.1 ≤ r := by
  intro r
  induction r with
  | zero => intro i; simp [newDBLoop]
  | succ r ih =>
    intro i
    simp only [newDBLoop]
    cases hc : create i with
    | ok d => simp
    | error e =>
      rcases hloop : newDBLoop create (i + 1) r with ⟨db, err, c, s⟩
      have hle := ih (i + 1)
      rw [hloop] at hle
      simp at hle
      cases db <;> simp <;> omega

/-- If the first `j` calls fail and call `j` succeeds (within the bound),
the retry loop returns that persister after `j + 1` calls and `j` sleeps. -/
theorem newDBLoop_success (create : Nat → Except Err π) :
    ∀ j r i p, j < r →
    (∀ t, t < j → ∃ e, create (i + t) = .error e) →
    create (i + j) = .ok p →
    newDBLoop create i r = (some p, none, j + 1, j) := by
  intro j
  induction j with
  | zero =>
    intro r i p hjr hfail hok
    obtain ⟨r', rfl⟩ : ∃ r', r = r' + 1 := ⟨r - 1, by omega⟩
    have hok' : create i = .ok p := by simpa using hok
    simp [newDBLoop, hok']
  | succ j ih =>
    intro r i p hjr hfail hok
    obtain ⟨r', rfl⟩ : ∃ r', r = r' + 1 := ⟨r - 1, by omega⟩
    obtain ⟨e0, he0⟩ := hfail 0 (Nat.succ_pos j)
    have he0' : create i = .error e0 := by simpa using he0
    have hrec := ih r' (i + 1) p (by omega)
      (fun t ht => by
        obtain ⟨e, he⟩ := hfail (t + 1) (by omega)
        refine ⟨e, ?_⟩
        have harith : i + 1 + t = i + (t + 1) := by omega
        rw [harith]
        exact he)
      (by
        have harith : i + 1 + j = i + (j + 1) := by omega
        rw [harith]
        exact hok)
    simp [newDBLoop, he0', hrec]

/-- If every call up to the bound fails, the retry loop returns the last
call's error after `r` calls and `r` sleeps. -/
theorem newDBLoop_allfail (create : Nat → Except Err π) :
    ∀ r i elast, 0 < r →
    (∀ t, t < r → ∃ e, create (i + t) = .error e) →
    create (i + (r - 1)) = .error elast →
    newDBLoop create i r = (none, some elast, r, r) := by
  intro r
  induction r with
  | zero => intro i elast h _ _; exact absurd h (by omega)
  | succ r ih =>
    intro i elast _ hfail hlast
    by_cases hr : r = 0
    · subst hr
      have hlast' : create i = .error elast := by simpa using hlast
      simp [newDBLoop, hlast']
    · obtain ⟨e0, he0⟩ := hfail 0 (by omega)
      have he0' : create i = .error e0 := by simpa using he0
      have hrec := ih (i + 1) elast (by omega)
        (fun t ht => by
          obtain ⟨e, he⟩ := hfail (t + 1) (by omega)
          refine ⟨e, ?_⟩
          have harith : i + 1 + t = i + (t + 1) := by omega
          rw [harith]
          exact he)
        (by
          have harith : i + 1 + (r - 1) = i + r := by omega
          rw [harith]
          simpa using hlast)
      simp [newDBLoop, he0', hrec]

/-- Bookkeeping of the retry loop: a sleep follows every failed call, the
final one included, so without a persister the sleeps equal the calls, with
one the sleeps are one fewer, and a positive bound with no recorded error
means a persister was produced. -/
theorem newDBLoop_accounting (create : Nat → Except Err π) :
    ∀ r i db err c s, newDBLoop create i r = (db, err, c, s) →
      (db = none → s = c)
      ∧ (db ≠ none → s + 1 = c ∧ err = none)
      ∧ (0 < r → err = none → db ≠ none) := by
  intro r
  induction r with
  | zero =>
    intro i db err c s h
    simp [newDBLoop] at h
    obtain ⟨rfl, rfl, rfl, rfl⟩ := h
    exact ⟨fun _ => rfl, fun hd => absurd rfl hd, fun hr _ => absurd hr (by omega)⟩
  | succ r ih =>
    intro i db err c s h
    simp only [newDBLoop] at h
    cases hc : create i with
    | ok d =>
      rw [hc] at h
      simp at h
      obtain ⟨rfl, rfl, rfl, rfl⟩ := h
      exact ⟨fun hd => by simp at hd, fun _ => ⟨rfl, rfl⟩, fun _ _ => by simp⟩
    | error e =>
      rw [hc] at h
      rcases hloop : newDBLoop create (i + 1) r with ⟨db', err', c', s'⟩
      rw [hloop] at h
      have ihh := ih (i + 1) db' err' c' s' hloop
      cases db' with
      | some d =>
        simp at h
        obtain ⟨rfl, rfl, rfl, rfl⟩ := h
        obtain ⟨h1, h2⟩ := ihh.2.1 (by simp)
        exact ⟨fun hd => by simp at hd, fun _ => ⟨by omega, rfl⟩, fun _ _ => by simp⟩
      | none =>
        simp at h
        obtain ⟨rfl, rfl, rfl, rfl⟩ := h
        have hs := ihh.1 rfl
        exact ⟨fun _ => by omega, fun hd => absurd rfl hd, fun _ herr => by simp at herr⟩

/-- C4: `NewDB` makes at most ten `Create` calls; the first success (after
`j` failures, `j` below the bound) is returned immediately after `j + 1`
calls with no further attempts — in particular nine failures then a success
yield the tenth call's persister — and if all ten calls fail, the error of
the tenth call (index 9) is returned after ten calls. -/
theorem NewDB_retry (create : String → Nat → Except Err π) (path : String) :
    (NewDB (some create) path).2.1 ≤ MaxRetriesToCreateDB
    ∧ (∀ j p, j < MaxRetriesToCreateDB →
        (∀ t, t < j → ∃ e, create path t = .error e) →
        create path j = .ok p →
        NewDB (some create) path = (.ok (some p), j + 1, j))
    ∧ (∀ elast,
        (∀ t, t < MaxRetriesToCreateDB → ∃ e, create path t = .error e) →
        create path 9 = .error elast →
        NewDB (some create) path
          = (.error elast, MaxRetriesToCreateDB, MaxRetriesToCreateDB)) := by
  refine ⟨?_, ?_, ?_⟩
  · simp only [NewDB]
    rcases hloop : newDBLoop (create path) 0 MaxRetriesToCreateDB with ⟨db, err, c, s⟩
    have hle := newDBLoop_calls_le (create path) MaxRetriesToCreateDB 0
    rw [hloop] at hle
    simp at hle
    cases err <;> simpa using hle
  · intro j p hj hfail hok
    have hloop := newDBLoop_success (create path) j MaxRetriesToCreateDB 0 p hj
      (fun t ht => by simpa using hfail t ht) (by simpa using hok)
    simp [NewDB, hloop]
  · intro elast hfail hlast
    have hloop := newDBLoop_allfail (create path) MaxRetriesToCreateDB 0 elast
      (by norm_num [MaxRetriesToCreateDB])
      (fun t ht => by simpa using hfail t ht)
      (by simpa [MaxRetriesToCreateDB] using hlast)
    simp [NewDB, hloop]

/-- Witness for C4: a factory failing the first nine calls and succeeding on
the tenth yields the tenth call's persister after ten calls and nine
sleeps. -/
theorem NewDB_retry_witness :
    NewDB (some (fun (_ : String) i =>
        if i < 9 then Except.error ("fail " ++ toString i)
        else Except.ok PUnit.unit)) "path"
      = (.ok (some PUnit.unit), 10, 9) := by
  have h := (NewDB_retry (fun (_ : String) i =>
      if i < 9 then Except.error ("fail " ++ toString i)
      else Except.ok PUnit.unit) "path").2.1 9 PUnit.unit (by decide)
    (fun t ht => ⟨"fail " ++ toString t, by rw [if_pos ht]⟩)
    (by rfl)
  exact h

/-- Counterexample to C5 as stated: a factory failing all ten calls incurs
ten backoff sleeps, not at most nine — the loop sleeps after the final
failed attempt too. -/
theorem NewDB_ten_sleeps_counterexample :
    (NewDB (π := PUnit) (some (fun _ _ => .error "create failed")) "path").2.2
      = 10
    ∧ ¬ ((NewDB (π := PUnit)
          (some (fun _ _ => .error "create failed")) "path").2.2 ≤ 9) := by
  constructor <;> decide

/-- C5 amended: the backoff sleep runs once after every failed `Create`
call, including the final one: sleeps never exceed `MaxRetriesToCreateDB`
(ten — so the caller blocks at most max-attempts times the backoff interval
in the worst case), on success the sleeps are exactly one fewer than the
`Create` calls, and on a returned error exactly as many. -/
theorem NewDB_sleep_per_failed_call (factory : Factory π) (path : String) :
    (NewDB factory path).2.2 ≤ MaxRetriesToCreateDB
    ∧ (∀ p', (NewDB factory path).1 = .ok p' →
        (NewDB factory path).2.2 + 1 = (NewDB factory path).2.1)
    ∧ (∀ e, (NewDB factory path).1 = .error e →
        (NewDB factory path).2.2 = (NewDB factory path).2.1) := by
  cases factory with
  | none =>
    exact ⟨by simp [NewDB, MaxRetriesToCreateDB],
      fun p' h => by simp [NewDB] at h, fun e h => rfl⟩
  | some create =>
    simp only [NewDB]
    rcases hloop : newDBLoop (create path) 0 MaxRetriesToCreateDB with ⟨db, err, c, s⟩
    have hacc := newDBLoop_accounting (create path) MaxRetriesToCreateDB 0 db err c s hloop
    have hle := newDBLoop_calls_le (create path) MaxRetriesToCreateDB 0
    rw [hloop] at hle
    simp at hle
    cases err with
    | some e =>
      have hdb : db = none := by
        cases db with
        | none => rfl
        | some d =>
          have := (hacc.2.1 (by simp)).2
          simp at this
      subst hdb
      have hs := hacc.1 rfl
      refine ⟨by simp; omega, fun p' h => by simp at h, fun e' h => by simp; omega⟩
    | none =>
      have hdb : db ≠ none := hacc.2.2 (by norm_num [MaxRetriesToCreateDB]) rfl
      obtain ⟨d, rfl⟩ : ∃ d, db = some d := by
        cases db with
        | none => exact absurd rfl hdb
        | some d => exact ⟨d, rfl⟩
      have hs := (hacc.2.1 (by simp)).1
      refine ⟨by simp; omega, fun p' h => by simp; omega, fun e h => by simp at h⟩

/-- Witness for C5 amended: an always-failing factory ends with the sleeps
equal to the `Create` calls. -/
theorem NewDB_sleep_per_failed_call_witness :
    (NewDB (π := PUnit) (some (fun _ _ => .error "boom")) "p").2.2
      = (NewDB (π := PUnit) (some (fun _ _ => .error "boom")) "p").2.1 := by
  have h := (NewDB_sleep_per_failed_call (π := PUnit)
    (some (fun _ _ => .error "boom")) "p").2.2 "boom" (by rfl)
  exact h

/-- C7: `NewCache` rejects misconfiguration per cache kind: plain
count-bounded LRU with any non-zero byte size, size-bounded LRU with a byte
size below the minimum floor (zero included), and an unrecognized cache
kind. -/
theorem NewCache_validation (config : CacheConfig) :
    (config.Type' = LRUCache → config.SizeInBytes ≠ 0 →
      NewCache config = .error ErrLRUCacheWithProvidedSize)
    ∧ (config.Type' = SizeLRUCache →
        config.SizeInBytes < minimumSizeForLRUCache →
        NewCache config = .error (lruInvalidSizeError config.SizeInBytes))
    ∧ (config.Type' ≠ LRUCache → config.Type' ≠ SizeLRUCache →
        config.Type' ≠ FIFOShardedCache →
        NewCache config = .error ErrNotSupportedCacheType) := by
  refine ⟨?_, ?_, ?_⟩
  · intro ht hs
    unfold NewCache
    rw [if_pos ht, if_pos hs]
  · intro ht hs
    have hne : config.Type' ≠ LRUCache := by rw [ht]; decide
    unfold NewCache
    rw [if_neg hne, if_pos ht, if_pos hs]
  · intro h1 h2 h3
    unfold NewCache
    rw [if_neg h1, if_neg h2, if_neg h3]

/-- Witness for C7: the three rejections at concrete configurations. -/
theorem NewCache_validation_witness :
    NewCache ⟨"c1", "LRU", 5, 0, 10, 0, 0⟩ = .error ErrLRUCacheWithProvidedSize
    ∧ NewCache ⟨"c2", "SizeLRU", 100, 0, 10, 0, 0⟩
        = .error (lruInvalidSizeError 100)
    ∧ NewCache ⟨"c3", "Unknown", 0, 0, 10, 0, 0⟩
        = .error ErrNotSupportedCacheType :=
  ⟨(NewCache_validation ⟨"c1", "LRU", 5, 0, 10, 0, 0⟩).1 rfl (by decide),
   (NewCache_validation ⟨"c2", "SizeLRU", 100, 0, 10, 0, 0⟩).2.1 rfl (by decide),
   (NewCache_validation ⟨"c3", "Unknown", 0, 0, 10, 0, 0⟩).2.2
     (by decide) (by decide) (by decide)⟩

/-- The bulk loop's accumulated results are the accumulator followed by the
per-key successful pairs. -/
theorem getBulkLoop_eq_spec (C : CacherOps κ) (P : PersisterOps π) :
    ∀ (keys : List Bytes) (u : Unit κ π) (acc : List KeyValuePair),
      (Unit.getBulkLoop C P u acc keys).2 = acc ++ getBulkSpec C P u keys := by
  intro keys
  induction keys with
  | nil => intro u acc; simp [Unit.getBulkLoop, getBulkSpec]
  | cons key rest ih =>
    intro u acc
    simp only [Unit.getBulkLoop, getBulkSpec]
    cases h : (Unit.Get C P u key).2 with
    | error e => rw [ih]
    | ok v =>
      rw [ih]
      simp

/-- The keys of the successful pairs form a sublist — hence appear in input
order, at most once per input occurrence — of the requested keys. -/
theorem getBulkSpec_keys_sublist (C : CacherOps κ) (P : PersisterOps π) :
    ∀ (keys : List Bytes) (u : Unit κ π),
      List.Sublist ((getBulkSpec C P u keys).map KeyValuePair.Key) keys := by
  intro keys
  induction keys with
  | nil => intro u; simp [getBulkSpec]
  | cons key rest ih =>
    intro u
    simp only [getBulkSpec]
    cases h : (Unit.Get C P u key).2 with
    | error e => exact List.Sublist.cons key (ih _)
    | ok v => simpa using List.Sublist.cons₂ key (ih _)

/-- C10: `GetBulkFromEpoch` unconditionally returns a nil error; its result
lists, in input order, exactly one pair per key whose sequential `Get`
succeeded, silently omitting every key whose `Get` failed. -/
theorem GetBulkFromEpoch_collects_successes (C : CacherOps κ)
    (P : PersisterOps π) (u : Unit κ π) (keys : List Bytes) (epoch : Nat) :
    (Unit.GetBulkFromEpoch C P u keys epoch).2.2 = none
    ∧ (Unit.GetBulkFromEpoch C P u keys epoch).2.1 = getBulkSpec C P u keys
    ∧ List.Sublist
        (((Unit.GetBulkFromEpoch C P u keys epoch).2.1).map KeyValuePair.Key)
        keys := by
  refine ⟨rfl, ?_, ?_⟩
  · show (Unit.getBulkLoop C P u [] keys).2 = _
    rw [getBulkLoop_eq_spec]
    simp
  · show List.Sublist
      ((Unit.getBulkLoop C P u [] keys).2.map KeyValuePair.Key) keys
    rw [getBulkLoop_eq_spec]
    simpa using getBulkSpec_keys_sublist C P keys u

end storageUnit
